import Mathlib

/-!
Verification development for the white-box interpretability toolkit
(`white_box/plotting.py` and `white_box/data.py`).

The Python source is shallowly embedded: tensors along the vocabulary axis
become real-valued vectors `Fin V → ℝ`, token sequences become `List Nat`,
fallible code returns `Except`, and the in-place tensor mutation performed by
the `residual_means` branch of `plot_logit_lens` is made observable through an
explicit store of tensors addressed by natural numbers.  Components of the
repository that are only imported by the two source files (the
`ResidualStream` container, the stream recorder, the divergence functions of
`stats.py`) are modelled from the specification and marked as such in their
doc comments.
-/

namespace WhiteBox

/-! ### Input resolution in `_run_inference` (`plotting.py`, lines 203-206) -/

/-- Error raised by `_run_inference` when the caller supplies neither `text`
nor `input_ids` (`ValueError`, the spec's `InvalidArgument`). -/
inductive InferenceError where
  | invalidArgument
deriving DecidableEq

/-- Embedding of the `text` / `input_ids` resolution of `_run_inference`
(`plotting.py`, lines 203-206): if `text` is given it is encoded with the
tokenizer and overwrites `input_ids`; otherwise, if `input_ids` is also
missing, a `ValueError` is raised. -/
def resolveInput (encode : String → List Nat) (text : Option String)
    (input_ids : Option (List Nat)) : Except InferenceError (List Nat) :=
  match text with
  | some t => .ok (encode t)
  | none =>
    match input_ids with
    | some ids => .ok ids
    | none => .error .invalidArgument

/-! ### `get_columns_all_equal` (`data.py`, lines 97-116) -/

/-- Error outcomes of `get_columns_all_equal`: the explicit
`ValueError("All splits must have the same columns")` (the spec's
`InvalidArgument`), and the `StopIteration` that `next(iter(...))` would raise
on an empty `DatasetDict`. -/
inductive ColumnsError where
  | invalidArgument
  | stopIteration
deriving DecidableEq

/-- A `Dataset` (one list of column names) or a `DatasetDict` (one list of
column names per split), the two shapes accepted by `get_columns_all_equal`. -/
inductive HFData where
  | dataset (column_names : List String)
  | datasetDict (column_names : List (List String))
deriving DecidableEq

/-- Embedding of `get_columns_all_equal` (`data.py`, lines 97-116): for a
`DatasetDict`, take the first split's column list and require every split's
column list to equal it, raising `ValueError` otherwise; for a plain
`Dataset`, return its column list. -/
def get_columns_all_equal : HFData → Except ColumnsError (List String)
  | .dataset cols => .ok cols
  | .datasetDict [] => .error .stopIteration
  | .datasetDict (c :: rest) =>
    if (c :: rest).all (fun cols => cols == c) then .ok c
    else .error .invalidArgument

/-! ### Theorems for claims C1 and C8 -/

/-- C1 (counterexample): the claim asserts that supplying both `text` and
`input_ids` fails with `InvalidArgument`; in the code, `text` silently takes
precedence and no error is raised. At the concrete input
`text = some "hi"`, `input_ids = some [7]` (with a tokenizer encoding
everything to `[5]`), `_run_inference` succeeds with the encoding of the
text. -/
theorem claim_C1_counterexample :
    resolveInput (fun _ => [5]) (some "hi") (some [7]) = .ok [5] ∧
      resolveInput (fun _ => [5]) (some "hi") (some [7]) ≠
        .error InferenceError.invalidArgument := by
  constructor
  · rfl
  · simp [resolveInput]

/-- C1 (amended): if neither `text` nor `input_ids` is supplied,
`_run_inference` fails with `InvalidArgument`; if `text` is supplied it is
used (encoded by the tokenizer) regardless of whether `input_ids` is also
supplied, and if only `input_ids` is supplied it is used directly. -/
theorem claim_C1 (encode : String → List Nat) :
    resolveInput encode none none = .error InferenceError.invalidArgument ∧
      (∀ t ids, resolveInput encode (some t) ids = .ok (encode t)) ∧
      (∀ ids, resolveInput encode none (some ids) = .ok ids) :=
  ⟨rfl, fun _ _ => rfl, fun _ => rfl⟩

/-- C8: `get_columns_all_equal` on a `DatasetDict` returns the first split's
column list exactly when every split's column list equals it, and fails with
`InvalidArgument` exactly when some split's column list differs. -/
theorem claim_C8 (c : List String) (rest : List (List String)) :
    (get_columns_all_equal (.datasetDict (c :: rest)) = .ok c ↔
      ∀ cols ∈ rest, cols = c) ∧
    (get_columns_all_equal (.datasetDict (c :: rest)) =
        .error ColumnsError.invalidArgument ↔
      ¬ ∀ cols ∈ rest, cols = c) := by
  have hall : ((c :: rest).all (fun cols => cols == c) = true) ↔
      ∀ cols ∈ rest, cols = c := by
    simp [List.all_eq_true]
  constructor
  · constructor
    · intro h
      by_contra hne
      rw [get_columns_all_equal] at h
      rw [if_neg] at h
      · exact Except.noConfusion h
      · simp only [hall]
        exact hne
    · intro h
      rw [get_columns_all_equal, if_pos (hall.mpr h)]
  · constructor
    · intro h hforall
      rw [get_columns_all_equal, if_pos (hall.mpr hforall)] at h
      exact Except.noConfusion h
    · intro h
      rw [get_columns_all_equal, if_neg]
      simp only [hall]
      exact h

/-! ### The algebraic logit-lens decode (`plotting.py`, lines 59-64) -/

/-- The indexing `layers[i]` of the Python layer list, taking the block's
first output component (`x, *_ = layers[i](x)`); an out-of-range index is the
identity (unreachable for indices produced by the loop when
`extra_decoder_layers ≤ len(layers)`). -/
def applyLayer {V : Type} (layers : List (V → V)) (i : Nat) (x : V) : V :=
  ((layers.get? i).getD id) x

/-- Embedding of `decode_fn` (`plotting.py`, lines 59-64): run the loop
`for i in range(L - extra_decoder_layers, L): x, *_ = layers[i](x)`, then
apply the final layer norm, the output embedding, and log-softmax over the
vocabulary axis. The Python `range(a, b)` over natural bounds is
`List.range' a (b - a)`. -/
def decode_fn {V : Type} (layers : List (V → V)) (ln_f E logSoftmax : V → V)
    (extra_decoder_layers : Nat) (x : V) : V :=
  let L := layers.length
  let looped :=
    (List.range' (L - extra_decoder_layers) (L - (L - extra_decoder_layers))).foldl
      (fun acc i => applyLayer layers i acc) x
  logSoftmax (E (ln_f looped))

/-- The claim's description of the algebraic decode: re-run the final
`extra_decoder_layers` transformer blocks on the hidden state in increasing
layer order, then apply final normalization, then the output-embedding
projection, then log-softmax. -/
def decodeSpecClaim {V : Type} (layers : List (V → V)) (ln_f E logSoftmax : V → V)
    (extra_decoder_layers : Nat) (x : V) : V :=
  let rerun := (layers.drop (layers.length - extra_decoder_layers)).foldl
    (fun acc f => f acc) x
  logSoftmax (E (ln_f rerun))

/-- Folding the indices `i, i+1, ..., length-1` through `applyLayer` is the
same as folding the suffix `layers.drop i` of the layer list itself. -/
theorem rangeFold_eq_dropFold {V : Type} (layers : List (V → V)) (n : Nat) :
    ∀ (i : Nat) (x : V), layers.length - i = n →
      (List.range' i n).foldl (fun acc j => applyLayer layers j acc) x =
        (layers.drop i).foldl (fun acc f => f acc) x := by
  induction n with
  | zero =>
    intro i x h
    rw [List.drop_eq_nil_of_le (by omega)]
    rfl
  | succ n ih =>
    intro i x h
    have hi : i < layers.length := by omega
    rw [List.range'_succ, List.foldl_cons,
      List.drop_eq_getElem_cons hi, List.foldl_cons]
    have happ : applyLayer layers i x = layers[i] x := by
      simp [applyLayer, List.getElem?_eq_getElem hi]
    rw [happ]
    exact ih (i + 1) _ (by omega)

/-- C2: for `extra_decoder_layers ≤ len(layers)`, `decode_fn` re-runs exactly
the final `extra_decoder_layers` transformer blocks in increasing layer order
and then applies final normalization, the output-embedding projection, and
log-softmax; with `extra_decoder_layers = 0` the loop is a no-op and the
decode is `log_softmax(E(ln_f(x)))`. -/
theorem claim_C2 {V : Type} (layers : List (V → V)) (ln_f E logSoftmax : V → V)
    (extra_decoder_layers : Nat) (x : V)
    (hextra : extra_decoder_layers ≤ layers.length) :
    decode_fn layers ln_f E logSoftmax extra_decoder_layers x =
      decodeSpecClaim layers ln_f E logSoftmax extra_decoder_layers x ∧
    decode_fn layers ln_f E logSoftmax 0 x = logSoftmax (E (ln_f x)) := by
  constructor
  · have hcount : layers.length - (layers.length - extra_decoder_layers) =
        extra_decoder_layers := by omega
    simp only [decode_fn, decodeSpecClaim]
    rw [hcount,
      rangeFold_eq_dropFold layers extra_decoder_layers
        (layers.length - extra_decoder_layers) x (by omega)]
  · simp only [decode_fn]
    simp

/-- C2 (witness): the two decode formulations agree on a concrete two-layer
model over natural numbers with one extra decoder layer. -/
theorem claim_C2_witness :
    decode_fn [fun x => x + 1, fun x => x * 2] (fun x => x + 3) (fun x => x * 5)
        (fun x => x + 7) 1 1 =
      decodeSpecClaim [fun x => x + 1, fun x => x * 2] (fun x => x + 3)
        (fun x => x * 5) (fun x => x + 7) 1 1 ∧
    decode_fn [fun x => x + 1, fun x => x * 2] (fun x => x + 3) (fun x => x * 5)
        (fun x => x + 7) 0 1 = ((1 + 3) * 5) + 7 :=
  claim_C2 [fun x => x + 1, fun x => x * 2] (fun x => x + 3) (fun x => x * 5)
    (fun x => x + 7) 1 1 (by decide)

/-! ### Dataset chunking: `chunk_and_tokenize` / `_tokenize_fn` (`data.py`) -/

/-- Split a list into consecutive windows of `n` elements, the last window
possibly shorter; `fuel` bounds the recursion and `l.length` is always
enough fuel when `0 < n`. -/
def chunksOfAux (n : Nat) : Nat → List Nat → List (List Nat)
  | 0, _ => []
  | _ + 1, [] => []
  | fuel + 1, a :: as =>
    (a :: as).take n :: chunksOfAux n fuel ((a :: as).drop n)

/-- Split a token-id list into consecutive `n`-token windows, the trailing
window possibly shorter than `n`. -/
def chunksOf (n : Nat) (l : List Nat) : List (List Nat) :=
  chunksOfAux n l.length l

/-- The `input_ids` / `attention_mask` fields returned by the tokenizer call
and carried through `_tokenize_fn`. -/
structure TokenizedBatch where
  input_ids : List (List Nat)
  attention_mask : List (List Nat)
deriving DecidableEq

/-- Modelled from the spec: the tokenizer collaborator (§6), called in
`_tokenize_fn` with `truncation=True`, `max_length`, and
`return_overflowing_tokens=True` — it encodes the string to token ids, splits
them into consecutive `max_length`-token windows (the trailing window possibly
shorter), and returns parallel all-ones attention-mask windows. -/
def hfTokenize (encode : String → List Nat) (max_length : Nat) (s : String) :
    TokenizedBatch :=
  { input_ids := chunksOf max_length (encode s),
    attention_mask := chunksOf max_length ((encode s).map fun _ => 1) }

/-- Embedding of `_tokenize_fn` (`data.py`, lines 80-94): join all samples of
the batch with the EOS separator, tokenize with
`max_length = min(tokenizer.model_max_length, 2048)` and overflowing windows,
then drop the last window of every field (`v[:-1]`). -/
def tokenize_fn (encode : String → List Nat) (sep : String)
    (model_max_length : Nat) (texts : List String) : TokenizedBatch :=
  let tb := hfTokenize encode (min model_max_length 2048)
    (String.intercalate sep texts)
  { input_ids := tb.input_ids.dropLast,
    attention_mask := tb.attention_mask.dropLast }

/-- The columns kept by `chunk_and_tokenize`'s `with_format` call
(`data.py`, line 44). -/
def chunk_and_tokenize_columns : List String := ["input_ids", "attention_mask"]

/-- The claim's description of the chunking: split the separator-joined
concatenation into `max_length`-token windows and drop the trailing window
only when it is shorter than `max_length`. -/
def tokenizeClaim (encode : String → List Nat) (sep : String)
    (model_max_length : Nat) (texts : List String) : List (List Nat) :=
  let m := min model_max_length 2048
  let chunks := chunksOf m (encode (String.intercalate sep texts))
  if (chunks.getLast?.getD []).length < m then chunks.dropLast else chunks

/-- `chunksOfAux` returns `[]` only when it is out of fuel or out of input. -/
theorem chunksOfAux_ne_nil (n fuel : Nat) (l : List Nat) (hfuel : fuel ≠ 0)
    (hl : l ≠ []) : chunksOfAux n fuel l ≠ [] := by
  match fuel, l with
  | 0, _ => exact absurd rfl hfuel
  | fuel + 1, [] => exact absurd rfl hl
  | fuel + 1, a :: as => simp [chunksOfAux]

/-- Every window of a chunking except the last has exactly `n` elements. -/
theorem chunksOfAux_dropLast_length (n : Nat) (_hn : 0 < n) :
    ∀ (fuel : Nat) (l : List Nat), ∀ c ∈ (chunksOfAux n fuel l).dropLast,
      c.length = n := by
  intro fuel
  induction fuel with
  | zero => intro l c hc; simp [chunksOfAux] at hc
  | succ fuel ih =>
    intro l c hc
    cases l with
    | nil => simp [chunksOfAux] at hc
    | cons a as =>
      rw [chunksOfAux] at hc
      cases hrest : chunksOfAux n fuel ((a :: as).drop n) with
      | nil =>
        rw [hrest] at hc
        simp [List.dropLast_single] at hc
      | cons r rs =>
        rw [hrest, List.dropLast_cons_of_ne_nil (by simp)] at hc
        rcases List.mem_cons.mp hc with hc | hc
        · subst hc
          have hdrop : (a :: as).drop n ≠ [] := by
            intro hnil
            rw [hnil] at hrest
            cases fuel <;> simp [chunksOfAux] at hrest
          have hlen : n < (a :: as).length := by
            by_contra hle
            exact hdrop (List.drop_eq_nil_of_le (by omega))
          rw [List.length_take]
          rw [List.length_cons] at hlen ⊢
          omega
        · have hrec := ih ((a :: as).drop n) c
          rw [hrest] at hrec
          exact hrec hc

/-- C6 (counterexample): the claim says only a trailing *partial* window is
dropped; `_tokenize_fn` drops the last window unconditionally (`v[:-1]`).
With a tokenizer encoding each character to one id, `model_max_length = 2`,
separator `"#"` and batch `["ab", "c"]`, the joined text has exactly 4 tokens,
both windows are full, yet the code keeps only the first window while the
claim's description keeps both. -/
theorem claim_C6_counterexample :
    (tokenize_fn (fun s => List.range s.length) "#" 2 ["ab", "c"]).input_ids ≠
      tokenizeClaim (fun s => List.range s.length) "#" 2 ["ab", "c"] := by
  decide

/-- C6 (amended): `chunk_and_tokenize` concatenates the batch's records with
the EOS separator, splits the token ids into `max_length`-token windows with
`max_length = min(model_max_length, 2048)`, and always drops the trailing
window (even when it is exactly `max_length` tokens long), so every produced
`input_ids` and `attention_mask` window has exactly `max_length` tokens, and
the dataset is formatted with exactly the fields `input_ids` and
`attention_mask`. -/
theorem claim_C6 (encode : String → List Nat) (sep : String)
    (model_max_length : Nat) (texts : List String)
    (hm : 0 < min model_max_length 2048) :
    (tokenize_fn encode sep model_max_length texts).input_ids =
      (chunksOf (min model_max_length 2048)
        (encode (String.intercalate sep texts))).dropLast ∧
    (∀ c ∈ (tokenize_fn encode sep model_max_length texts).input_ids,
      c.length = min model_max_length 2048) ∧
    (∀ c ∈ (tokenize_fn encode sep model_max_length texts).attention_mask,
      c.length = min model_max_length 2048) ∧
    chunk_and_tokenize_columns = ["input_ids", "attention_mask"] := by
  refine ⟨rfl, ?_, ?_, rfl⟩
  · intro c hc
    exact chunksOfAux_dropLast_length _ hm _ _ c hc
  · intro c hc
    exact chunksOfAux_dropLast_length _ hm _ _ c hc

/-- C6 (witness): on the concrete batch `["ab", "c"]` with a one-id-per-
character tokenizer and `model_max_length = 2`, the code's output is the
dropLast of the windows, and every kept window has exactly 2 tokens. -/
theorem claim_C6_witness :
    (tokenize_fn (fun s => List.range s.length) "#" 2 ["ab", "c"]).input_ids =
      (chunksOf (min 2 2048)
        (List.range (String.intercalate "#" ["ab", "c"]).length)).dropLast ∧
    (∀ c ∈ (tokenize_fn (fun s => List.range s.length) "#" 2
        ["ab", "c"]).input_ids, c.length = min 2 2048) ∧
    (∀ c ∈ (tokenize_fn (fun s => List.range s.length) "#" 2
        ["ab", "c"]).attention_mask, c.length = min 2 2048) ∧
    chunk_and_tokenize_columns = ["input_ids", "attention_mask"] :=
  claim_C6 (fun s => List.range s.length) "#" 2 ["ab", "c"] (by decide)

/-! ### Residual stream container and the `residual_means` branch
(`plotting.py`, lines 43-47)

Tensor mutation is made observable through an explicit store: a
`ResidualStream` holds addresses into a store of tensors, so that an
in-place update (`state += acc`, torch `add_`) shows up as a change of the
store at a captured address, while a pure transformation allocates fresh
addresses and leaves every existing store entry unchanged. -/

/-- A (one-dimensional) tensor of integers. -/
abbrev Tensor := List Int

/-- The tensor store: address `a` holds `store[a]`. -/
abbrev Store := List Tensor

/-- A captured residual stream: ordered addresses of the per-layer tensors. -/
structure ResidualStream where
  layers : List Nat
deriving DecidableEq

/-- Read the tensor at address `a` of the store. -/
def readT (σ : Store) (a : Nat) : Tensor := (σ.get? a).getD []

/-- Elementwise tensor addition (torch `+` on equally shaped tensors). -/
def addT (x y : Tensor) : Tensor := x.zipWith (· + ·) y

/-- Elementwise tensor subtraction. -/
def subT (x y : Tensor) : Tensor := x.zipWith (· - ·) y

/-- `torch.zeros_like`: a fresh all-zero tensor of the same shape. -/
def zerosLike (t : Tensor) : Tensor := t.map fun _ => 0

/-- Allocate a list of tensor values at fresh addresses at the end of the
store, returning the new container and the extended store. -/
def allocStream (σ : Store) (vals : List Tensor) : ResidualStream × Store :=
  (⟨(List.range vals.length).map fun i => σ.length + i⟩, σ ++ vals)

/-- Modelled from the spec: `ResidualStream.map` (§4.2, `residual_stream.py`
is not under `src/`) — apply `f` to every entry's tensor and return a new
container. -/
def streamMap (f : Tensor → Tensor) (s : ResidualStream) (σ : Store) :
    ResidualStream × Store :=
  allocStream σ (s.layers.map fun a => f (readT σ a))

/-- Modelled from the spec: `ResidualStream.zip_map` (§4.2) — elementwise
combine two containers of equal length, failing with `ShapeMismatch` when the
lengths differ. -/
def streamZipMap (f : Tensor → Tensor → Tensor) (s t : ResidualStream)
    (σ : Store) : Except String (ResidualStream × Store) :=
  if s.layers.length = t.layers.length then
    .ok (allocStream σ ((s.layers.zip t.layers).map
      fun p => f (readT σ p.1) (readT σ p.2)))
  else .error "ShapeMismatch"

/-- Modelled from the spec: `ResidualStream.pairwise_map` (§4.2) — apply `f`
to every ordered pair of consecutive entries, returning a new, one-shorter
container. -/
def streamPairwiseMap (f : Tensor → Tensor → Tensor) (s : ResidualStream)
    (σ : Store) : ResidualStream × Store :=
  allocStream σ ((s.layers.zip s.layers.tail).map
    fun p => f (readT σ p.1) (readT σ p.2))

/-- Modelled from the spec: `ResidualStream.residuals` (§4.2) — successive
differences `entry[i+1] - entry[i]`, returned as a new container. -/
def streamResiduals (s : ResidualStream) (σ : Store) :
    ResidualStream × Store :=
  allocStream σ ((s.layers.zip s.layers.tail).map
    fun p => subT (readT σ p.2) (readT σ p.1))

/-- The loop body of the `residual_means` branch (`plotting.py`, lines 45-47):
for each (address, mean) pair, `state += acc` updates the stored tensor in
place, then `acc += mean`. -/
def residualMeansLoop : List (Nat × Tensor) → Tensor → Store → Store
  | [], _, σ => σ
  | (a, mean) :: rest, acc, σ =>
    residualMeansLoop rest (addT acc mean) (σ.set a (addT (readT σ a) acc))

/-- Embedding of the `residual_means` branch of `plot_logit_lens`
(`plotting.py`, lines 43-47): starting from `acc = zeros_like(means[0])`,
walk the stream and the means in reverse in lockstep, adding the running
accumulator into each captured tensor in place. -/
def residualMeansAccum (s : ResidualStream) (means : List Tensor)
    (σ : Store) : Store :=
  match means with
  | [] => σ
  | m0 :: _ =>
    residualMeansLoop (s.layers.reverse.zip means.reverse) (zerosLike m0) σ

/-- Old addresses survive an allocation unchanged. -/
theorem allocStream_preserves (σ : Store) (vals : List Tensor) (a : Nat)
    (ha : a < σ.length) : (allocStream σ vals).2.get? a = σ.get? a := by
  simp [allocStream, List.getElem?_append_left ha]

/-- Every address of a freshly allocated container lies beyond the old
store. -/
theorem allocStream_fresh (σ : Store) (vals : List Tensor) :
    ∀ addr ∈ (allocStream σ vals).1.layers, σ.length ≤ addr := by
  intro addr haddr
  simp only [allocStream, List.mem_map, List.mem_range] at haddr
  obtain ⟨i, _, rfl⟩ := haddr
  omega

/-- C7 (counterexample): the claim says no operation in the pipeline mutates
a captured container's tensors in place, covering the `residual_means`
accumulation branch; but on the captured stream at addresses `[0, 1]` over
the store `[[1], [2]]` with means `[[10], [20]]`, the branch rewrites the
store to `[[21], [2]]`, changing the tensor the container's first entry
points at. -/
theorem claim_C7_counterexample :
    residualMeansAccum ⟨[0, 1]⟩ [[10], [20]] [[1], [2]] = [[21], [2]] ∧
      readT (residualMeansAccum ⟨[0, 1]⟩ [[10], [20]] [[1], [2]]) 0 ≠
        readT [[1], [2]] 0 := by
  constructor
  · rfl
  · decide

/-- C7 (amended): the container transformations `map`, `zip_map`,
`pairwise_map` and `residuals` are pure — each returns a new container at
fresh addresses and leaves every previously stored tensor unchanged — but the
`residual_means` accumulation branch of `plot_logit_lens` mutates the
captured stream's tensors in place (`state += acc`). -/
theorem claim_C7 (f : Tensor → Tensor) (g : Tensor → Tensor → Tensor)
    (s t : ResidualStream) (σ : Store) (a : Nat) (ha : a < σ.length) :
    ((streamMap f s σ).2.get? a = σ.get? a ∧
      ∀ addr ∈ (streamMap f s σ).1.layers, σ.length ≤ addr) ∧
    (∀ r, streamZipMap g s t σ = .ok r → r.2.get? a = σ.get? a) ∧
    ((streamPairwiseMap g s σ).2.get? a = σ.get? a) ∧
    ((streamResiduals s σ).2.get? a = σ.get? a) ∧
    residualMeansAccum ⟨[0, 1]⟩ [[10], [20]] [[1], [2]] ≠ [[1], [2]] := by
  refine ⟨⟨allocStream_preserves σ _ a ha, allocStream_fresh σ _⟩, ?_, ?_, ?_, ?_⟩
  · intro r hr
    unfold streamZipMap at hr
    by_cases hlen : s.layers.length = t.layers.length
    · rw [if_pos hlen] at hr
      cases hr
      exact allocStream_preserves σ _ a ha
    · rw [if_neg hlen] at hr
      exact Except.noConfusion hr
  · exact allocStream_preserves σ _ a ha
  · exact allocStream_preserves σ _ a ha
  · decide

/-- C7 (witness): purity of the transformations at a concrete store with one
captured tensor, together with the concrete in-place mutation of the
`residual_means` branch. -/
theorem claim_C7_witness :
    ((streamMap (addT [1]) ⟨[0]⟩ [[1]]).2.get? 0 = [[1]].get? 0 ∧
      ∀ addr ∈ (streamMap (addT [1]) ⟨[0]⟩ [[1]]).1.layers,
        [[1]].length ≤ addr) ∧
    (∀ r, streamZipMap addT ⟨[0]⟩ ⟨[0]⟩ [[1]] = .ok r →
      r.2.get? 0 = [[1]].get? 0) ∧
    ((streamPairwiseMap addT ⟨[0]⟩ [[1]]).2.get? 0 = [[1]].get? 0) ∧
    ((streamResiduals ⟨[0]⟩ [[1]]).2.get? 0 = [[1]].get? 0) ∧
    residualMeansAccum ⟨[0, 1]⟩ [[10], [20]] [[1], [2]] ≠ [[1], [2]] :=
  claim_C7 (addT [1]) addT ⟨[0]⟩ ⟨[0]⟩ [[1]] 0 (by decide)

/-! ### Stream recorder scope used by `_run_inference`
(`plotting.py`, lines 209-210) -/

/-- A model together with the number of capture points (forward hooks)
currently attached to it. -/
structure HookedModel where
  hooks : Nat
deriving DecidableEq

/-- Modelled from the spec: `record_residual_stream` (§4.3,
`residual_stream.py` is not under `src/`) — on entry attach one capture point
per observed module, run the wrapped forward pass while every attached point
appends one entry in invocation order, and on exit (normal or exceptional)
detach exactly the capture points attached on entry, re-raising any forward
error unchanged.  The captured stream lists one entry id per capture point
active during the pass. -/
def record_residual_stream {E : Type} (m : HookedModel) (nPoints : Nat)
    (forward : Except E Unit) : Except E (List Nat) × HookedModel :=
  let attached : HookedModel := ⟨m.hooks + nPoints⟩
  let result : Except E (List Nat) :=
    forward.map fun _ => List.range attached.hooks
  (result, ⟨attached.hooks - nPoints⟩)

/-- C9: the recorder scope removes every capture point it attached on every
exit path — the model's hook state after the scope equals its state before,
whether the forward pass returned normally or raised, and a raised error is
re-raised unchanged — so a second independent recording on a clean model
yields exactly the expected number of entries, with no duplicates from leaked
capture points, regardless of how the first recording's forward pass
terminated. -/
theorem claim_C9 {E : Type} (m : HookedModel) (n : Nat)
    (forward : Except E Unit) :
    ((record_residual_stream m n forward).2 = m) ∧
    (∀ e : E, (record_residual_stream m n (Except.error e)).1 =
      Except.error e) ∧
    ((record_residual_stream (⟨0⟩ : HookedModel) n
        (Except.ok () : Except E Unit)).1 = Except.ok (List.range n)) ∧
    ((record_residual_stream
        (record_residual_stream (⟨0⟩ : HookedModel) n forward).2 n
        (Except.ok () : Except E Unit)).1 = Except.ok (List.range n)) := by
  refine ⟨?_, fun e => rfl, ?_, ?_⟩
  · simp [record_residual_stream]
  · simp [record_residual_stream, Except.map]
  · simp [record_residual_stream, Except.map]

/-! ### Metric assembly and rendering in `plot_logit_lens`
(`plotting.py`, lines 76-105)

Each decoded stream entry is taken at one token position, as a vector of
log-probabilities over the vocabulary `Fin V → ℝ`; the assembled statistic is
one real number per entry.  The pairwise divergences `geodesic_distance` and
`js_divergence` are imported from `stats.py`, which is not under `src/`, so
they stay abstract parameters of the dispatch. -/

/-- Errors raised by the metric dispatch of `plot_logit_lens`: the
`NotImplementedError` of the `"ce"` branch and the
`ValueError(f"Unknown metric: ...")` of the final `else` branch (the spec's
`UnsupportedMetric`). -/
inductive PlotError where
  | notImplemented
  | unsupportedMetric (name : String)
deriving DecidableEq

/-- The metric options declared in the signature of `plot_logit_lens`
(`plotting.py`, line 27): `Literal["ce", "geodesic", "entropy", "js", "kl"]`. -/
def metricOptions : List String := ["ce", "geodesic", "entropy", "js", "kl"]

/-- Log-softmax over the vocabulary axis (`x.log_softmax(dim=-1)`). -/
noncomputable def logSoftmaxR {V : Nat} (z : Fin V → ℝ) : Fin V → ℝ :=
  fun i => z i - Real.log (∑ j, Real.exp (z j))

/-- The entropy statistic of `plot_logit_lens` (`plotting.py`, line 80):
`-th.sum(x.exp() * x, dim=-1)` applied to a log-probability vector. -/
noncomputable def entropyStat {V : Nat} (x : Fin V → ℝ) : ℝ :=
  -(∑ i, Real.exp (x i) * x i)

/-- The KL statistic of `plot_logit_lens` (`plotting.py`, lines 90-93):
`th.sum(log_probs.exp() * (log_probs - x), dim=-1)` where `log_probs` is the
log-softmax of the model's final-layer logits. -/
noncomputable def klStat {V : Nat} (log_probs x : Fin V → ℝ) : ℝ :=
  ∑ i, Real.exp (log_probs i) * (log_probs i - x i)

/-- Apply a pairwise divergence to every pair of consecutive entries
(`hidden_lps.pairwise_map(...)`). -/
def pairwiseStats {V : Nat} (f : (Fin V → ℝ) → (Fin V → ℝ) → ℝ)
    (lps : List (Fin V → ℝ)) : List ℝ :=
  (lps.zip lps.tail).map fun p => f p.1 p.2

/-- Embedding of the metric dispatch of `plot_logit_lens` (`plotting.py`,
lines 77-95), in source order: `"ce"` raises `NotImplementedError`,
`"entropy"` maps the entropy statistic, `"geodesic"` and `"js"` apply the
respective pairwise divergence from `stats.py` (abstract parameters here),
`"kl"` maps the KL statistic against the log-softmax of the final-layer
logits of the same forward pass, and any other name raises
`ValueError(f"Unknown metric: ...")`. -/
noncomputable def plotLogitLensStats (V : Nat)
    (geodesic_distance js_divergence : (Fin V → ℝ) → (Fin V → ℝ) → ℝ)
    (metric : String) (hidden_lps : List (Fin V → ℝ)) (logits : Fin V → ℝ) :
    Except PlotError (List ℝ) :=
  if metric = "ce" then .error .notImplemented
  else if metric = "entropy" then .ok (hidden_lps.map entropyStat)
  else if metric = "geodesic" then
    .ok (pairwiseStats geodesic_distance hidden_lps)
  else if metric = "js" then .ok (pairwiseStats js_divergence hidden_lps)
  else if metric = "kl" then
    .ok (hidden_lps.map (klStat (logSoftmaxR logits)))
  else .error (.unsupportedMetric metric)

/-- The data handed to the renderer by `_plot_stream` for one call of
`plot_logit_lens`: the assembled statistics and the colorbar label
`f"{metric} (nats)"` (`plotting.py`, line 101). -/
structure RenderCall where
  stats : List ℝ
  colorbar_label : String

/-- Embedding of the statistics-then-render tail of `plot_logit_lens`
(`plotting.py`, lines 76-105): `_plot_stream` is reached only when the metric
dispatch produced statistics, so an error in the dispatch means nothing is
rendered. -/
noncomputable def plotLogitLens (V : Nat)
    (geodesic_distance js_divergence : (Fin V → ℝ) → (Fin V → ℝ) → ℝ)
    (metric : String) (hidden_lps : List (Fin V → ℝ)) (logits : Fin V → ℝ) :
    Except PlotError RenderCall :=
  (plotLogitLensStats V geodesic_distance js_divergence metric hidden_lps
    logits).map fun stats => ⟨stats, metric ++ " (nats)"⟩

/-- C3: a metric name outside the declared option set makes
`plot_logit_lens` fail with `UnsupportedMetric` carrying that name; no
statistics are assembled, nothing is rendered, and no default metric is
substituted. -/
theorem claim_C3 {V : Nat}
    (geodesic_distance js_divergence : (Fin V → ℝ) → (Fin V → ℝ) → ℝ)
    (metric : String) (hidden_lps : List (Fin V → ℝ)) (logits : Fin V → ℝ)
    (hm : metric ∉ metricOptions) :
    plotLogitLens V geodesic_distance js_divergence metric hidden_lps logits =
      .error (.unsupportedMetric metric) := by
  simp only [metricOptions, List.mem_cons, List.not_mem_nil, or_false,
    not_or] at hm
  obtain ⟨h1, h2, h3, h4, h5⟩ := hm
  simp [plotLogitLens, plotLogitLensStats, h1, h2, h3, h4, h5, Except.map]

/-- C3 (witness): the unknown metric name `"bogus"` fails with
`UnsupportedMetric "bogus"` on a concrete (empty) decoded stream. -/
theorem claim_C3_witness :
    plotLogitLens 1 (fun _ _ => 0) (fun _ _ => 0) "bogus" []
        (fun _ => (0 : ℝ)) =
      .error (.unsupportedMetric "bogus") :=
  claim_C3 (fun _ _ => 0) (fun _ _ => 0) "bogus" [] (fun _ => (0 : ℝ))
    (by decide)

/-- C10: `"ce"` is among the metric options declared in the signature of
`plot_logit_lens`, yet selecting it raises `NotImplementedError` before any
statistics are assembled or anything is rendered. -/
theorem claim_C10 {V : Nat}
    (geodesic_distance js_divergence : (Fin V → ℝ) → (Fin V → ℝ) → ℝ)
    (hidden_lps : List (Fin V → ℝ)) (logits : Fin V → ℝ) :
    "ce" ∈ metricOptions ∧
      plotLogitLens V geodesic_distance js_divergence "ce" hidden_lps
        logits = .error .notImplemented :=
  ⟨by decide, rfl⟩

/-- C4: the entropy metric of `plot_logit_lens` is `-Σ p·log p` per token in
natural log: the dispatch maps `entropyStat` over the decoded entries,
`entropyStat` on a log-probability vector `x` is `-Σ exp(x)·x`, on the
pointwise log of a positive distribution `p` it is `-Σ p·log p`, and on the
uniform distribution over vocabulary size `V` it equals `log V`. -/
theorem claim_C4 (V : Nat) (hV : 0 < V) (p : Fin V → ℝ)
    (hp : ∀ i, 0 < p i) :
    (∀ (g j : (Fin V → ℝ) → (Fin V → ℝ) → ℝ) (lps : List (Fin V → ℝ))
      (logits : Fin V → ℝ),
      plotLogitLensStats V g j "entropy" lps logits =
        .ok (lps.map entropyStat)) ∧
    (∀ x : Fin V → ℝ, entropyStat x = -(∑ i, Real.exp (x i) * x i)) ∧
    (entropyStat (fun i => Real.log (p i)) =
      -(∑ i, p i * Real.log (p i))) ∧
    (entropyStat (fun _ : Fin V => Real.log ((V : ℝ)⁻¹)) = Real.log V) := by
  have hV' : (0 : ℝ) < V := by exact_mod_cast hV
  refine ⟨fun g j lps logits => rfl, fun x => rfl, ?_, ?_⟩
  · unfold entropyStat
    congr 1
    exact Finset.sum_congr rfl fun i _ => by rw [Real.exp_log (hp i)]
  · simp only [entropyStat]
    rw [Real.exp_log (by positivity), Real.log_inv]
    rw [Finset.sum_const, Finset.card_univ, Fintype.card_fin, nsmul_eq_mul]
    field_simp

/-- C4 (witness): at vocabulary size 1 the distribution `p = 1` is positive,
entropy is `-Σ exp(x)·x`, equals `-Σ p·log p`, and the uniform entropy is
`log 1`. -/
theorem claim_C4_witness :
    (∀ (g j : (Fin 1 → ℝ) → (Fin 1 → ℝ) → ℝ) (lps : List (Fin 1 → ℝ))
      (logits : Fin 1 → ℝ),
      plotLogitLensStats 1 g j "entropy" lps logits =
        .ok (lps.map entropyStat)) ∧
    (∀ x : Fin 1 → ℝ, entropyStat x = -(∑ i, Real.exp (x i) * x i)) ∧
    (entropyStat (fun i : Fin 1 => Real.log ((fun _ => (1 : ℝ)) i)) =
      -(∑ i : Fin 1, (fun _ => (1 : ℝ)) i *
          Real.log ((fun _ => (1 : ℝ)) i))) ∧
    (entropyStat (fun _ : Fin 1 => Real.log (((1 : Nat) : ℝ)⁻¹)) =
      Real.log ((1 : Nat) : ℝ)) :=
  claim_C4 1 (by decide) (fun _ => (1 : ℝ)) (fun i => by norm_num)

/-- C5: the KL metric of `plot_logit_lens` maps `klStat` against the
log-softmax of the model's own final-layer logits from the same forward pass;
`klStat` is `Σ p_final·(log p_final − log p_layer)` for
`p_final = exp(log_softmax(logits))`, and it vanishes when the layer's
distribution equals the final distribution. -/
theorem claim_C5 (V : Nat) (logits : Fin V → ℝ) :
    (∀ (g j : (Fin V → ℝ) → (Fin V → ℝ) → ℝ) (lps : List (Fin V → ℝ)),
      plotLogitLensStats V g j "kl" lps logits =
        .ok (lps.map (klStat (logSoftmaxR logits)))) ∧
    (∀ x : Fin V → ℝ, klStat (logSoftmaxR logits) x =
      ∑ i, Real.exp (logSoftmaxR logits i) *
        (Real.log (Real.exp (logSoftmaxR logits i)) - x i)) ∧
    klStat (logSoftmaxR logits) (logSoftmaxR logits) = 0 := by
  refine ⟨fun g j lps => rfl, fun x => ?_, ?_⟩
  · unfold klStat
    exact Finset.sum_congr rfl fun i _ => by rw [Real.log_exp]
  · unfold klStat
    simp

end WhiteBox
